import Mathlib

/-!
Verification of the IMEA direct data extractor (`imea_extractor.py`).

The development shallowly embeds the extractor's core pipeline:
calendar-month range partitioning (`generate_monthly_ranges`), request
planning and per-task fetching (`make_request` plus the batched collection
loop), the sort-then-drop-duplicates reconciliation step, the unit filter
of `_transform_historical_data`, the pivot/fill summary
(`create_percentage_summary`) and the per-crop/per-activity file splitting
(`save_separated_files`).  Python `datetime.date` values are embedded as a
`Date` structure ordered lexicographically; pandas sorts are embedded as
stable insertion sorts over the same lexicographic keys the source passes
to `sort_values`; floating-point percentage values are embedded as `ℚ`.
-/

/-- A calendar date, as Python's `datetime` (year, month, day). -/
structure Date where
  year : Nat
  month : Nat
  day : Nat
deriving DecidableEq, Repr

/-- Gregorian leap-year test, as implemented by Python's `datetime`. -/
def isLeap (y : Nat) : Bool :=
  (y % 4 == 0 && y % 100 != 0) || (y % 400 == 0)

/-- Number of days in a month of a given year (Python `calendar` rules). -/
def daysInMonth (y m : Nat) : Nat :=
  if m == 2 then (if isLeap y then 29 else 28)
  else if m == 4 || m == 6 || m == 9 || m == 11 then 30
  else 31

/-- A `Date` is valid when Python's `datetime` constructor accepts it. -/
def Date.valid (d : Date) : Bool :=
  decide (1 ≤ d.month) && decide (d.month ≤ 12) &&
    decide (1 ≤ d.day) && decide (d.day ≤ daysInMonth d.year d.month)

/-- Lexicographic `≤` on dates, matching Python `datetime` comparison. -/
def dateLe (a b : Date) : Bool :=
  a.year < b.year ||
    (a.year == b.year &&
      (a.month < b.month || (a.month == b.month && a.day ≤ b.day)))

/-- Lexicographic `<` on dates, matching Python `datetime` comparison. -/
def dateLt (a b : Date) : Bool :=
  a.year < b.year ||
    (a.year == b.year &&
      (a.month < b.month || (a.month == b.month && a.day < b.day)))

/-- Python's `min` on two dates. -/
def minDate (a b : Date) : Date :=
  if dateLe a b then a else b

/-- `d.replace(day=1)`: first day of `d`'s month. -/
def firstOfMonth (d : Date) : Date :=
  ⟨d.year, d.month, 1⟩

/-- One calendar month later (`relativedelta(months=1)` on a day-1 date,
or the manual year/month arithmetic of the `HAS_DATEUTIL` fallback). -/
def nextMonth (d : Date) : Date :=
  if d.month == 12 then ⟨d.year + 1, 1, d.day⟩ else ⟨d.year, d.month + 1, d.day⟩

/-- `d - timedelta(days=1)` on valid dates. -/
def predDay (d : Date) : Date :=
  if 1 < d.day then ⟨d.year, d.month, d.day - 1⟩
  else if 1 < d.month then ⟨d.year, d.month - 1, daysInMonth d.year (d.month - 1)⟩
  else ⟨d.year - 1, 12, 31⟩

/-- `d + timedelta(days=1)` on valid dates. -/
def succDay (d : Date) : Date :=
  if d.day < daysInMonth d.year d.month then ⟨d.year, d.month, d.day + 1⟩
  else if d.month < 12 then ⟨d.year, d.month + 1, 1⟩
  else ⟨d.year + 1, 1, 1⟩

/-- The `while current_month <= end_dt` loop body of
`generate_monthly_ranges`, with an explicit iteration bound; the bound
chosen by `generate_monthly_ranges` below is proved ample, so the
embedding computes the same list the Python loop does. -/
def genLoop : Nat → Date → Date → List (Date × Date)
  | 0, _, _ => []
  | fuel + 1, cm, endD =>
    if dateLe cm endD then
      (cm, minDate (predDay (nextMonth cm)) endD) :: genLoop fuel (nextMonth cm) endD
    else []

/-- `generate_monthly_ranges(start_dt, end_dt)` from
`extract_historical_series`: starts at the beginning of `start`'s month
and emits `(current_month, min(month_end, end_dt))` windows while
`current_month <= end_dt`. -/
def generate_monthly_ranges (startD endD : Date) : List (Date × Date) :=
  genLoop (12 * endD.year + endD.month + 1) (firstOfMonth startD) endD

/-- A window list covers a date when some window contains it. -/
def covers (rs : List (Date × Date)) (d : Date) : Bool :=
  rs.any (fun r => dateLe r.1 d && dateLe d r.2)

/-- The month index `12*year + month`; for day-1 dates the loop guard of
`generate_monthly_ranges` is a comparison of month indices. -/
def monthIdx (d : Date) : Nat := 12 * d.year + d.month

/-- The properties `generate_monthly_ranges` guarantees for the window
list emitted from current month `cm` up to `e`: per-window bounds, exact
coverage of `[cm, e]`, day-level contiguity, strict ordering (hence
non-overlap), non-emptiness under the loop guard, and clipping of the
last window to `e`. -/
def GenLoopSpec (L : List (Date × Date)) (cm e : Date) : Prop :=
  (∀ w ∈ L, dateLe w.1 w.2 = true ∧ w.1.year = w.2.year ∧ w.1.month = w.2.month ∧
      dateLe cm w.1 = true ∧ dateLe w.2 e = true) ∧
  (∀ d : Date, d.valid = true → covers L d = (dateLe cm d && dateLe d e)) ∧
  List.Chain' (fun w1 w2 => succDay w1.2 = w2.1) L ∧
  L.Pairwise (fun w1 w2 => dateLt w1.2 w2.1 = true) ∧
  (dateLe cm e = true → L ≠ []) ∧
  (∀ w, L.getLast? = some w → w.2 = e)

/-! Data model of the fetch pipeline. -/

/-- A raw record of the `seriehistorica` endpoint: the response fields the
extractor reads.  Every field is optional, since a JSON record may omit
any of them (a missing field shows up as NaN in the pandas frame). -/
structure ApiRecord where
  data : Option Date
  valor : Option ℚ
  unidadeDescricao : Option String
  estadoId : Option Nat
  safraDescricao : Option String
deriving DecidableEq, Repr

/-- One entry of the `self.indicators` configuration dictionary. -/
structure IndicatorInfo where
  key : String
  id : String
  name : String
  crop : String
  activity : String
deriving DecidableEq, Repr

/-- The `self.indicators` mapping of `IMEADirectExtractor.__init__`, in
Python dict insertion order. -/
def indicators : List IndicatorInfo :=
  [⟨"cotton_planting", "705576963633053696", "Cotton Planting", "Cotton", "Planting"⟩,
   ⟨"cotton_harvest", "703492383711166464", "Cotton Harvesting", "Cotton", "Harvest"⟩,
   ⟨"cotton_commercialization", "703126874901708800", "Cotton Commercialization",
     "Cotton", "Commercialization"⟩,
   ⟨"corn_planting", "701211800784076800", "Corn Planting", "Corn", "Planting"⟩,
   ⟨"corn_harvest", "708192508847325187", "Corn Harvesting", "Corn", "Harvest"⟩,
   ⟨"corn_commercialization", "698758563422273536", "Corn Commercialization",
     "Corn", "Commercialization"⟩,
   ⟨"soy_planting", "708192508889268224", "Soy Planting", "Soy", "Planting"⟩,
   ⟨"soy_harvest", "708192508847325188", "Soy Harvest", "Soy", "Harvest"⟩,
   ⟨"soy_commercialization", "702389895595556864", "Soy Commercialization",
     "Soy", "Commercialization"⟩]

/-- Zero-padded two-digit rendering used by `strftime` for months/days. -/
def pad2 (n : Nat) : String :=
  if n < 10 then "0" ++ toString n else toString n

/-- `strftime('%Y-%m-%d')` for years of four digits. -/
def formatYMD (d : Date) : String :=
  toString d.year ++ "-" ++ pad2 d.month ++ "-" ++ pad2 d.day

/-- `strftime('%Y-%m')` for years of four digits. -/
def formatYM (d : Date) : String :=
  toString d.year ++ "-" ++ pad2 d.month

/-- The `request_info` dictionary built by `extract_historical_series` for
each (indicator, month-range) pair. -/
structure RequestInfo where
  indicator_key : String
  indicator_id : String
  crop : String
  activity : String
  start_date : String
  end_date : String
  month_label : String
  range_label : String
deriving DecidableEq, Repr

/-- The `all_requests` worklist: the cross-product of `self.indicators`
with the monthly ranges, in the nesting order of the source loops. -/
def all_requests (ranges : List (Date × Date)) : List RequestInfo :=
  indicators.flatMap (fun ind =>
    ranges.map (fun r =>
      ⟨ind.key, ind.id, ind.crop, ind.activity, formatYMD r.1, formatYMD r.2,
        formatYM r.1, formatYMD r.1 ++ " to " ++ formatYMD r.2⟩))

/-- A record tagged with the `_crop`, `_activity`, `_indicator_key` and
`_month` metadata `make_request` adds before returning. -/
structure TaggedRecord where
  record : ApiRecord
  crop : String
  activity : String
  indicator_key : String
  month : String
deriving DecidableEq, Repr

/-- The shape of a parsed 200-response body: a bare JSON list, an object
with a `data` key, or anything else (treated as no records). -/
inductive Body where
  | list (records : List ApiRecord)
  | wrapped (records : List ApiRecord)
  | other
deriving DecidableEq, Repr

/-- An HTTP response as seen by `make_request`: status code plus parsed
body. -/
structure HTTPResponse where
  status : Nat
  body : Body
deriving DecidableEq, Repr

/-- Record extraction from a response body (`isinstance` branches of
`make_request`). -/
def extractRecords : Body → List ApiRecord
  | .list rs => rs
  | .wrapped rs => rs
  | .other => []

/-- The per-task result dictionary of `make_request`: either
`{'success': True, 'data', 'crop', 'activity', 'month', 'record_count'}`
or `{'success': False, 'error', 'request_info'}`. -/
inductive Outcome where
  | success (data : List TaggedRecord) (crop activity month : String)
      (record_count : Nat)
  | failure (error : String) (request_info : RequestInfo)
deriving DecidableEq, Repr

/-- `make_request(request_info)` of `extract_historical_series`.  The
transport boundary (`self.session.post`) is abstracted as the second
argument: an exception message, or a status code with parsed body. -/
def make_request (req : RequestInfo) (resp : Except String HTTPResponse) : Outcome :=
  match resp with
  | .error e => .failure e req
  | .ok r =>
    if r.status = 200 then
      let records := (extractRecords r.body).map (fun a =>
        TaggedRecord.mk a req.crop req.activity req.indicator_key req.month_label)
      .success records req.crop req.activity req.month_label records.length
    else
      .failure ("HTTP " ++ toString r.status) req

/-- Fixed-size chunking of the worklist, with an explicit structural bound
(the list length, ample since each step consumes at least one element);
embeds `for batch_start in range(0, total_requests, batch_size)`. -/
def chunksGo {α : Type} (n : Nat) : Nat → List α → List (List α)
  | 0, _ => []
  | _ + 1, [] => []
  | fuel + 1, x :: xs => (x :: xs).take n :: chunksGo n fuel ((x :: xs).drop n)

/-- `batch_size = 50` of `extract_historical_series`. -/
def batch_size : Nat := 50

/-- The batches `all_requests[batch_start:batch_end]` processed in order. -/
def toBatches (l : List RequestInfo) : List (List RequestInfo) :=
  chunksGo batch_size l.length l

/-- One outcome per submitted task: every batch submits each of its
requests once to the pool and `as_completed` yields each future exactly
once.  The multiset of outcomes is completion-order independent; the
embedding uses submission order. -/
def fetchOutcomes (reqs : List RequestInfo)
    (transport : RequestInfo → Except String HTTPResponse) : List Outcome :=
  (toBatches reqs).flatMap (fun batch =>
    batch.map (fun req => make_request req (transport req)))

/-- The `batch_results` counters of the collection loop. -/
structure BatchStats where
  success : Nat
  failed : Nat
  total_records : Nat
  limit_hits : Nat
deriving DecidableEq, Repr

/-- One step of the `for future in concurrent.futures.as_completed(...)`
collection loop: extend `all_data` on success, bump counters, and count a
limit hit when `data_count >= 10`. -/
def processOutcome (acc : List TaggedRecord × BatchStats) (o : Outcome) :
    List TaggedRecord × BatchStats :=
  match o with
  | .success data _ _ _ rc =>
      (acc.1 ++ data,
        { acc.2 with
          success := acc.2.success + 1,
          total_records := acc.2.total_records + rc,
          limit_hits := acc.2.limit_hits + (if 10 ≤ rc then 1 else 0) })
  | .failure _ _ =>
      (acc.1, { acc.2 with failed := acc.2.failed + 1 })

/-- Folding the collection loop over all outcomes, starting from empty
`all_data` and zeroed counters. -/
def collectOutcomes (outs : List Outcome) : List TaggedRecord × BatchStats :=
  outs.foldl processOutcome ([], ⟨0, 0, 0, 0⟩)

/-- Whether an outcome dictionary has `success == True`. -/
def Outcome.isSuccess : Outcome → Bool
  | .success _ _ _ _ _ => true
  | .failure _ _ => false

/-- The `data` list of a success outcome. -/
def Outcome.records : Outcome → List TaggedRecord
  | .success data _ _ _ _ => data
  | .failure _ _ => []

/-- The `record_count` of a success outcome. -/
def Outcome.recordCount : Outcome → Nat
  | .success _ _ _ _ rc => rc
  | .failure _ _ => 0

/-! The deduplication step of `extract_historical_series`. -/

/-- The `drop_duplicates` subset `['Data', '_indicator_key', 'Valor']`. -/
def recKey (r : TaggedRecord) : Option Date × String × Option ℚ :=
  (r.record.data, r.indicator_key, r.record.valor)

/-- Strict order on optional dates: pandas sorts NaT/missing last. -/
def optDateLt (a b : Option Date) : Bool :=
  match a, b with
  | some x, some y => dateLt x y
  | some _, none => true
  | none, _ => false

/-- The lexicographic sort key `['Data', '_indicator_key', '_month']` of
`sort_values`; month labels are `%Y-%m` strings compared as strings. -/
def recLe (r s : TaggedRecord) : Prop :=
  optDateLt r.record.data s.record.data = true ∨
    (r.record.data = s.record.data ∧
      (r.indicator_key < s.indicator_key ∨
        (r.indicator_key = s.indicator_key ∧ r.month ≤ s.month)))

instance : DecidableRel recLe := fun r s => by
  unfold recLe
  infer_instance

/-- `df.sort_values(['Data', '_indicator_key', '_month'])`, embedded as a
stable sort by the same key. -/
def sortRecords (l : List TaggedRecord) : List TaggedRecord :=
  List.insertionSort recLe l

/-- `drop_duplicates(subset=..., keep='last')`: a row is dropped exactly
when a later row has the same key. -/
def dropDuplicatesKeepLast : List TaggedRecord → List TaggedRecord
  | [] => []
  | r :: rs =>
    if rs.any (fun s => decide (recKey s = recKey r)) then dropDuplicatesKeepLast rs
    else r :: dropDuplicatesKeepLast rs

/-- `'Data' in df.columns`: a frame built from record dictionaries has the
column when at least one record carries the field. -/
def hasDataColumn (l : List TaggedRecord) : Bool :=
  l.any (fun r => r.record.data.isSome)

/-- The deduplication step of `extract_historical_series` (lines 489-498):
sort then drop duplicates keeping the last, guarded by the presence of the
`Data` column. -/
def dedupStep (l : List TaggedRecord) : List TaggedRecord :=
  if hasDataColumn l then dropDuplicatesKeepLast (sortRecords l) else l

/-! The unit filter of `_transform_historical_data`. -/

/-- `'UnidadeDescricao' in df.columns`. -/
def hasUnitColumn (l : List TaggedRecord) : Bool :=
  l.any (fun r => r.record.unidadeDescricao.isSome)

/-- The percentage filter of `_transform_historical_data` (lines 654-656):
`df = df[df['UnidadeDescricao'] == 'Percentual']`, applied only when the
column exists; a row whose field is missing (NaN) compares unequal and is
dropped. -/
def unitFilter (l : List TaggedRecord) : List TaggedRecord :=
  if hasUnitColumn l then
    l.filter (fun r => decide (r.record.unidadeDescricao = some "Percentual"))
  else l

/-! The percentage summary (`create_percentage_summary`). -/

/-- The `activity` column values set by `_transform_historical_data` from
the indicator configuration. -/
inductive Activity where
  | Planting
  | Harvest
  | Commercialization
deriving DecidableEq, Repr

/-- A row of the transformed historical frame handed to
`create_percentage_summary`: the pivot index columns, the `activity`
column, and the `percentage` value. -/
structure Obs where
  date : Date
  year : Nat
  month : Nat
  crop : String
  state : String
  harvest_season : String
  activity : Activity
  percentage : ℚ
deriving DecidableEq, Repr

/-- The pivot index `['date', 'year', 'month', 'crop', 'state',
'harvest_season']`. -/
abbrev GroupKey := Date × Nat × Nat × String × String × String

/-- The pivot index key of an observation. -/
def obsKey (o : Obs) : GroupKey :=
  (o.date, o.year, o.month, o.crop, o.state, o.harvest_season)

/-- The `percentage` values of one pivot cell: observations of the group
with the given activity. -/
def activityVals (l : List Obs) (k : GroupKey) (a : Activity) : List ℚ :=
  (l.filter (fun o => decide (obsKey o = k) && decide (o.activity = a))).map
    (fun o => o.percentage)

/-- One pivot cell: `aggfunc='mean'` over the group's values for the
activity, with the absent-activity NaN filled to `0.0` by the
`fillna(0.0)` / missing-column loop. -/
def pivotCell (l : List Obs) (k : GroupKey) (a : Activity) : ℚ :=
  let vs := activityVals l k a
  if vs.length = 0 then 0 else vs.sum / (vs.length : ℚ)

/-- A row of the pivoted summary after column renaming and filling. -/
structure SummaryRow where
  date : Date
  year : Nat
  month : Nat
  crop : String
  state : String
  harvest_season : String
  planted_percentage : ℚ
  harvested_percentage : ℚ
  commercialized_percentage : ℚ
deriving DecidableEq, Repr

/-- The summary row of one pivot group. -/
def mkSummaryRow (l : List Obs) (k : GroupKey) : SummaryRow :=
  ⟨k.1, k.2.1, k.2.2.1, k.2.2.2.1, k.2.2.2.2.1, k.2.2.2.2.2,
    pivotCell l k .Planting, pivotCell l k .Harvest, pivotCell l k .Commercialization⟩

/-- The pivot index key of a summary row. -/
def rowKey (r : SummaryRow) : GroupKey :=
  (r.date, r.year, r.month, r.crop, r.state, r.harvest_season)

/-- The activity's percentage column of a summary row. -/
def cellOf (a : Activity) (r : SummaryRow) : ℚ :=
  match a with
  | .Planting => r.planted_percentage
  | .Harvest => r.harvested_percentage
  | .Commercialization => r.commercialized_percentage

/-- The final `sort_values(['date', 'crop'])` key. -/
def rowLe (a b : SummaryRow) : Prop :=
  dateLt a.date b.date = true ∨ (a.date = b.date ∧ a.crop ≤ b.crop)

instance : DecidableRel rowLe := fun a b => by
  unfold rowLe
  infer_instance

/-- `create_percentage_summary`: pivot the observations over the group
key with one mean-aggregated percentage column per activity, fill missing
activities with `0.0`, and sort by `(date, crop)`. -/
def create_percentage_summary (l : List Obs) : List SummaryRow :=
  List.insertionSort rowLe (((l.map obsKey).dedup).map (mkSummaryRow l))

/-! Per-crop/per-activity file splitting (`save_separated_files`). -/

/-- Which percentage column an activity tuple selects. -/
inductive ActCol where
  | planted
  | harvested
  | commercialized
deriving DecidableEq, Repr

/-- The percentage column of a summary row selected by an activity. -/
def pctOf (c : ActCol) (r : SummaryRow) : ℚ :=
  match c with
  | .planted => r.planted_percentage
  | .harvested => r.harvested_percentage
  | .commercialized => r.commercialized_percentage

/-- The `crops` list of `save_separated_files`. -/
def cropsList : List String := ["Soy", "Corn", "Cotton"]

/-- The `activities` tuples of `save_separated_files`. -/
def activitiesList : List (String × ActCol × String) :=
  [("Planting", .planted, "PLANTING"),
   ("Harvest", .harvested, "HARVEST"),
   ("Commercialization", .commercialized, "COMMERCIALIZATION")]

/-- The column selection and rename applied to each emitted subset row. -/
structure CleanRow where
  date : Date
  year : Nat
  month : Nat
  crop : String
  state : String
  harvest_season : String
  percentage : ℚ
deriving DecidableEq, Repr

/-- `clean_data` row construction: keep the index columns and rename the
activity's percentage column to `percentage`. -/
def toCleanRow (c : ActCol) (r : SummaryRow) : CleanRow :=
  ⟨r.date, r.year, r.month, r.crop, r.state, r.harvest_season, pctOf c r⟩

/-- The `sort_values('date')` key of the emitted subsets. -/
def cleanRowLe (a b : CleanRow) : Prop :=
  dateLe a.date b.date = true

instance : DecidableRel cleanRowLe := fun a b => by
  unfold cleanRowLe
  infer_instance

/-- One file handed to `save_dataset` by `save_separated_files`, with the
crop/activity pair that produced it. -/
structure SavedFile where
  crop : String
  activity : String
  col : ActCol
  filename : String
  rows : List CleanRow
deriving DecidableEq, Repr

/-- `save_separated_files(df)`: for each crop of `crops` and each activity
tuple, filter the crop's rows with a strictly positive percentage for that
activity, skip empty subsets (`continue`, hence no file), select/rename
the columns and sort the subset by date.  Persistence (`save_dataset`) is
external; the embedding returns the files that would be written. -/
def save_separated_files (df : List SummaryRow) : List SavedFile :=
  cropsList.flatMap (fun crop =>
    let crop_data := df.filter (fun r => decide (r.crop = crop))
    if crop_data.isEmpty then []
    else
      activitiesList.filterMap (fun act =>
        let activity_data := crop_data.filter (fun r => decide (0 < pctOf act.2.1 r))
        if activity_data.isEmpty then none
        else
          some ⟨crop, act.1, act.2.1,
            "BR_IMEA_" ++ crop.toUpper ++ "_" ++ act.2.2 ++ "_PERCENTAGE.csv",
            List.insertionSort cleanRowLe (activity_data.map (toCleanRow act.2.1))⟩))

/-! The run-level `extract` method. -/

/-- The environment of one extraction run: whether `authenticate()`
obtains a token, the transport oracle, and the overall date range of
`extract_historical_series`. -/
structure RunEnv where
  authOk : Bool
  transport : RequestInfo → Except String HTTPResponse
  startD : Date
  endD : Date

/-- The observable result of `extract`: the `success`/`error` fields of
the returned dictionary, together with the fetch tasks attempted and
their outcomes. -/
structure RunResult where
  success : Bool
  error : Option String
  tasksAttempted : Nat
  outcomes : List Outcome

/-- `extract(**kwargs)`: on authentication failure return
`{'success': False, 'error': 'Authentication failed', 'data': {}}` before
any task is built; otherwise build the monthly worklist and fetch it. -/
def extract (env : RunEnv) : RunResult :=
  if env.authOk then
    { success := true, error := none,
      tasksAttempted := (all_requests (generate_monthly_ranges env.startD env.endD)).length,
      outcomes := fetchOutcomes (all_requests (generate_monthly_ranges env.startD env.endD))
        env.transport }
  else
    { success := false, error := some "Authentication failed",
      tasksAttempted := 0, outcomes := [] }

/-! Basic order facts about dates. -/

theorem dateLe_refl (a : Date) : dateLe a a = true := by
  simp [dateLe]

theorem dateLe_trans {a b c : Date} (h1 : dateLe a b = true)
    (h2 : dateLe b c = true) : dateLe a c = true := by
  cases a; cases b; cases c
  simp only [dateLe, Bool.or_eq_true, Bool.and_eq_true, decide_eq_true_eq,
    beq_iff_eq, true_and] at *
  omega

theorem dateLt_iff_not_le {a b : Date} : dateLt a b = true ↔ ¬ dateLe b a = true := by
  cases a; cases b
  simp only [dateLt, dateLe, Bool.or_eq_true, Bool.and_eq_true, decide_eq_true_eq,
    beq_iff_eq, true_and]
  omega

theorem dateLe_total (a b : Date) : dateLe a b = true ∨ dateLe b a = true := by
  cases a; cases b
  simp only [dateLe, Bool.or_eq_true, Bool.and_eq_true, decide_eq_true_eq,
    beq_iff_eq, true_and]
  omega

theorem dateLt_of_le_of_lt {a b c : Date} (h1 : dateLe a b = true)
    (h2 : dateLt b c = true) : dateLt a c = true := by
  cases a; cases b; cases c
  simp only [dateLt, dateLe, Bool.or_eq_true, Bool.and_eq_true, decide_eq_true_eq,
    beq_iff_eq, true_and] at *
  omega

theorem dateLt_of_lt_of_le {a b c : Date} (h1 : dateLt a b = true)
    (h2 : dateLe b c = true) : dateLt a c = true := by
  cases a; cases b; cases c
  simp only [dateLt, dateLe, Bool.or_eq_true, Bool.and_eq_true, decide_eq_true_eq,
    beq_iff_eq, true_and] at *
  omega

theorem daysInMonth_pos (y m : Nat) : 1 ≤ daysInMonth y m := by
  unfold daysInMonth
  split <;> [split <;> omega; split <;> omega]

theorem daysInMonth_le_31 (y m : Nat) : daysInMonth y m ≤ 31 := by
  unfold daysInMonth
  split <;> [split <;> omega; split <;> omega]

theorem dateLe_antisymm {a b : Date} (h1 : dateLe a b = true)
    (h2 : dateLe b a = true) : a = b := by
  obtain ⟨ay, am, ad⟩ := a; obtain ⟨by', bm, bd⟩ := b
  simp only [dateLe, Bool.or_eq_true, Bool.and_eq_true, decide_eq_true_eq,
    beq_iff_eq, true_and] at h1 h2
  simp only [Date.mk.injEq]
  omega

theorem dateLe_of_lt {a b : Date} (h : dateLt a b = true) : dateLe a b = true := by
  obtain ⟨ay, am, ad⟩ := a; obtain ⟨by', bm, bd⟩ := b
  simp only [dateLt, dateLe, Bool.or_eq_true, Bool.and_eq_true, decide_eq_true_eq,
    beq_iff_eq, true_and] at *
  omega

theorem dateLe_day1_iff {cm e : Date} (hd1 : cm.day = 1) (hcm : cm.valid = true)
    (he : e.valid = true) : dateLe cm e = true ↔ monthIdx cm ≤ monthIdx e := by
  obtain ⟨y, m, c1⟩ := cm; obtain ⟨ey, em, ed⟩ := e
  simp only [Date.valid, Bool.and_eq_true, decide_eq_true_eq] at hcm he
  simp only at hd1
  subst hd1
  simp only [dateLe, monthIdx, Bool.or_eq_true, Bool.and_eq_true, decide_eq_true_eq,
    beq_iff_eq, true_and]
  omega

theorem nextMonth_valid {cm : Date} (hcm : cm.valid = true) (hd1 : cm.day = 1) :
    (nextMonth cm).valid = true ∧ (nextMonth cm).day = 1 ∧
      monthIdx (nextMonth cm) = monthIdx cm + 1 := by
  obtain ⟨y, m, c1⟩ := cm
  simp only [Date.valid, Bool.and_eq_true, decide_eq_true_eq] at hcm
  simp only at hd1
  subst hd1
  by_cases hm : m = 12
  · subst hm
    refine ⟨?_, by simp [nextMonth], by simp [nextMonth, monthIdx]; omega⟩
    simp [nextMonth, Date.valid, daysInMonth]
  · have hne : (m == 12) = false := by simp [hm]
    refine ⟨?_, by simp [nextMonth, hne], by simp [nextMonth, hne, monthIdx]; omega⟩
    have := daysInMonth_pos y (m + 1)
    simp only [nextMonth, hne, if_neg Bool.false_ne_true, Date.valid,
      Bool.and_eq_true, decide_eq_true_eq]
    omega

theorem predDay_nextMonth {cm : Date} (hcm : cm.valid = true) (hd1 : cm.day = 1) :
    predDay (nextMonth cm) = ⟨cm.year, cm.month, daysInMonth cm.year cm.month⟩ := by
  obtain ⟨y, m, c1⟩ := cm
  simp only [Date.valid, Bool.and_eq_true, decide_eq_true_eq] at hcm
  simp only at hd1
  subst hd1
  by_cases hm : m = 12
  · subst hm
    simp [nextMonth, predDay, daysInMonth]
  · have hne : (m == 12) = false := by simp [hm]
    simp only [nextMonth, hne, if_neg Bool.false_ne_true, predDay]
    rw [if_neg (by omega), if_pos (by omega)]
    simp

theorem lom_valid {cm : Date} (hcm : cm.valid = true) :
    Date.valid ⟨cm.year, cm.month, daysInMonth cm.year cm.month⟩ = true := by
  obtain ⟨y, m, c1⟩ := cm
  simp only [Date.valid, Bool.and_eq_true, decide_eq_true_eq] at hcm ⊢
  have := daysInMonth_pos y m
  omega

theorem dateLe_firstOfMonth_lom {cm : Date} :
    dateLe ⟨cm.year, cm.month, 1⟩ ⟨cm.year, cm.month, daysInMonth cm.year cm.month⟩ = true := by
  have := daysInMonth_pos cm.year cm.month
  simp only [dateLe, Bool.or_eq_true, Bool.and_eq_true, decide_eq_true_eq, beq_iff_eq, true_and]
  omega

theorem dateLt_lom_nextMonth {cm : Date} (hcm : cm.valid = true) (hd1 : cm.day = 1) :
    dateLt ⟨cm.year, cm.month, daysInMonth cm.year cm.month⟩ (nextMonth cm) = true := by
  obtain ⟨y, m, c1⟩ := cm
  simp only [Date.valid, Bool.and_eq_true, decide_eq_true_eq] at hcm
  by_cases hm : m = 12
  · subst hm
    simp [nextMonth, dateLt]
  · have hne : (m == 12) = false := by simp [hm]
    simp only [nextMonth, hne, if_neg Bool.false_ne_true, dateLt, Bool.or_eq_true,
      Bool.and_eq_true, decide_eq_true_eq, beq_iff_eq, true_and]
    omega

theorem dateLe_cm_nextMonth {cm : Date} (hcm : cm.valid = true) (hd1 : cm.day = 1) :
    dateLe cm (nextMonth cm) = true := by
  obtain ⟨y, m, c1⟩ := cm
  by_cases hm : m = 12
  · subst hm
    simp [nextMonth, dateLe]
  · have hne : (m == 12) = false := by simp [hm]
    simp only [nextMonth, hne, if_neg Bool.false_ne_true, dateLe, Bool.or_eq_true,
      Bool.and_eq_true, decide_eq_true_eq, beq_iff_eq, true_and]
    omega

theorem succDay_lom {cm : Date} (hcm : cm.valid = true) (hd1 : cm.day = 1) :
    succDay ⟨cm.year, cm.month, daysInMonth cm.year cm.month⟩ = nextMonth cm := by
  obtain ⟨y, m, c1⟩ := cm
  simp only [Date.valid, Bool.and_eq_true, decide_eq_true_eq] at hcm
  simp only at hd1
  subst hd1
  by_cases hm : m = 12
  · subst hm
    simp [succDay, nextMonth]
  · have hne : (m == 12) = false := by simp [hm]
    simp only [succDay, nextMonth, hne, if_neg Bool.false_ne_true]
    rw [if_neg (by omega), if_pos (by omega)]

theorem le_lom_or_nextMonth_le {cm d : Date} (hcm : cm.valid = true)
    (hd1 : cm.day = 1) (hd : d.valid = true) :
    dateLe d ⟨cm.year, cm.month, daysInMonth cm.year cm.month⟩ = true ∨
      dateLe (nextMonth cm) d = true := by
  obtain ⟨y, m, c1⟩ := cm; obtain ⟨dy, dm, dd⟩ := d
  simp only [Date.valid, Bool.and_eq_true, decide_eq_true_eq] at hcm hd
  simp only at hd1
  subst hd1
  by_cases hm : m = 12
  · subst hm
    simp only [nextMonth, beq_self_eq_true, if_pos]
    by_cases heq : dy = y ∧ dm = 12
    · obtain ⟨h1, h2⟩ := heq
      subst h1; subst h2
      left
      simp only [dateLe, Bool.or_eq_true, Bool.and_eq_true, decide_eq_true_eq,
        beq_iff_eq, true_and]
      omega
    · simp only [dateLe, Bool.or_eq_true, Bool.and_eq_true, decide_eq_true_eq,
        beq_iff_eq, true_and]
      omega
  · have hne : (m == 12) = false := by simp [hm]
    simp only [nextMonth, hne, if_neg Bool.false_ne_true]
    by_cases heq : dy = y ∧ dm = m
    · obtain ⟨h1, h2⟩ := heq
      subst h1; subst h2
      left
      simp only [dateLe, Bool.or_eq_true, Bool.and_eq_true, decide_eq_true_eq,
        beq_iff_eq, true_and]
      omega
    · simp only [dateLe, Bool.or_eq_true, Bool.and_eq_true, decide_eq_true_eq,
        beq_iff_eq, true_and]
      omega

theorem genLoop_nil {fuel : Nat} {cm e : Date} (h : dateLe cm e = false) :
    genLoop fuel cm e = [] := by
  cases fuel with
  | zero => rfl
  | succ n => simp [genLoop, h]

theorem dateLe_and_false {cm e d : Date} (h : dateLe cm e = false) :
    (dateLe cm d && dateLe d e) = false := by
  by_contra hc
  rw [Bool.not_eq_false, Bool.and_eq_true] at hc
  rw [dateLe_trans hc.1 hc.2] at h
  exact Bool.noConfusion h

theorem dateLe_self_lom {cm : Date} (hcm : cm.valid = true) :
    dateLe cm ⟨cm.year, cm.month, daysInMonth cm.year cm.month⟩ = true := by
  obtain ⟨y, m, c1⟩ := cm
  simp only [Date.valid, Bool.and_eq_true, decide_eq_true_eq] at hcm
  simp only [dateLe, Bool.or_eq_true, Bool.and_eq_true, decide_eq_true_eq,
    beq_iff_eq, true_and]
  omega

theorem genLoop_succ_pos {n : Nat} {cm e : Date} (hcm : cm.valid = true)
    (hd1 : cm.day = 1) (hg : dateLe cm e = true) :
    genLoop (n + 1) cm e =
      (cm, minDate ⟨cm.year, cm.month, daysInMonth cm.year cm.month⟩ e) ::
        genLoop n (nextMonth cm) e := by
  simp only [genLoop]
  rw [if_pos hg, predDay_nextMonth hcm hd1]

theorem coverage_step {cm e d : Date} (hcm : cm.valid = true) (hd1 : cm.day = 1)
    (hd : d.valid = true)
    (hlomle : dateLe ⟨cm.year, cm.month, daysInMonth cm.year cm.month⟩ e = true) :
    ((dateLe cm d && dateLe d ⟨cm.year, cm.month, daysInMonth cm.year cm.month⟩) ||
      (dateLe (nextMonth cm) d && dateLe d e)) = (dateLe cm d && dateLe d e) := by
  rw [Bool.eq_iff_iff]
  simp only [Bool.or_eq_true, Bool.and_eq_true]
  constructor
  · rintro (⟨ha, hb⟩ | ⟨ha, hb⟩)
    · exact ⟨ha, dateLe_trans hb hlomle⟩
    · exact ⟨dateLe_trans (dateLe_cm_nextMonth hcm hd1) ha, hb⟩
  · rintro ⟨ha, hb⟩
    rcases le_lom_or_nextMonth_le hcm hd1 hd with hl | hr
    · exact Or.inl ⟨ha, hl⟩
    · exact Or.inr ⟨hr, hb⟩

theorem genLoopSpec_nil {fuel : Nat} {cm e : Date} (hguard : dateLe cm e = false) :
    GenLoopSpec (genLoop fuel cm e) cm e := by
  rw [genLoop_nil hguard]
  refine ⟨?_, ?_, ?_, ?_, ?_, ?_⟩
  · intro w hw; simp at hw
  · intro d _
    rw [dateLe_and_false hguard]
    simp [covers]
  · simp
  · simp
  · intro hgg; rw [hgg] at hguard; exact Bool.noConfusion hguard
  · intro w hw; simp at hw

theorem genLoop_spec (fuel : Nat) (e : Date) (he : e.valid = true) :
    ∀ cm : Date, cm.valid = true → cm.day = 1 →
      12 * e.year + e.month + 1 ≤ 12 * cm.year + cm.month + fuel →
      GenLoopSpec (genLoop fuel cm e) cm e := by
  induction fuel with
  | zero =>
    intro cm hcm hd1 hfuel
    have hguard : dateLe cm e = false := by
      cases hg : dateLe cm e with
      | false => rfl
      | true =>
        have := (dateLe_day1_iff hd1 hcm he).mp hg
        simp only [monthIdx] at this
        omega
    exact genLoopSpec_nil hguard
  | succ n ih =>
    intro cm hcm hd1 hfuel
    obtain ⟨hnv, hnd1, hnidx⟩ := nextMonth_valid hcm hd1
    cases hg : dateLe cm e with
    | false => exact genLoopSpec_nil hg
    | true =>
      rw [GenLoopSpec, genLoop_succ_pos hcm hd1 hg]
      cases h2 : dateLe (nextMonth cm) e with
      | true =>
        have hfuel' : 12 * e.year + e.month + 1 ≤
            12 * (nextMonth cm).year + (nextMonth cm).month + n := by
          simp only [monthIdx] at hnidx
          omega
        obtain ⟨ih1, ih2, ih3, ih4, ih5, ih6⟩ := ih (nextMonth cm) hnv hnd1 hfuel'
        have hlomle : dateLe ⟨cm.year, cm.month, daysInMonth cm.year cm.month⟩ e = true :=
          dateLe_trans (dateLe_of_lt (dateLt_lom_nextMonth hcm hd1)) h2
        have hmin : minDate ⟨cm.year, cm.month, daysInMonth cm.year cm.month⟩ e =
            ⟨cm.year, cm.month, daysInMonth cm.year cm.month⟩ := by
          unfold minDate; rw [if_pos hlomle]
        rw [hmin]
        have hhead : ∃ t, genLoop n (nextMonth cm) e =
            (nextMonth cm, minDate ⟨(nextMonth cm).year, (nextMonth cm).month,
              daysInMonth (nextMonth cm).year (nextMonth cm).month⟩ e) :: t := by
          cases n with
          | zero =>
            exfalso
            have := (dateLe_day1_iff hnd1 hnv he).mp h2
            simp only [monthIdx] at this hnidx
            omega
          | succ k => exact ⟨_, genLoop_succ_pos hnv hnd1 h2⟩
        obtain ⟨t, ht⟩ := hhead
        refine ⟨?_, ?_, ?_, ?_, ?_, ?_⟩
        · intro w hw
          rcases List.mem_cons.mp hw with rfl | hw'
        
          · exact ⟨dateLe_self_lom hcm, rfl, rfl, dateLe_refl cm, hlomle⟩
          · have h := ih1 w hw'
            exact ⟨h.1, h.2.1, h.2.2.1,
              dateLe_trans (dateLe_cm_nextMonth hcm hd1) h.2.2.2.1, h.2.2.2.2⟩
        · intro d hd
          have hih := ih2 d hd
          simp only [covers, List.any_cons] at hih ⊢
          rw [hih]
          exact coverage_step hcm hd1 hd hlomle
        · rw [List.chain'_cons']
          refine ⟨?_, ih3⟩
          intro b hb
          rw [ht] at hb
          simp only [List.head?_cons, Option.mem_def, Option.some.injEq] at hb
          rw [← hb]
          exact succDay_lom hcm hd1
        · rw [List.pairwise_cons]
          refine ⟨?_, ih4⟩
          intro w hw
          exact dateLt_of_lt_of_le (dateLt_lom_nextMonth hcm hd1) (ih1 w hw).2.2.2.1
        · intro _; simp
        · intro w hw
          rw [ht, List.getLast?_cons_cons] at hw
          exact ih6 w (ht ▸ hw)
      | false =>
        have hL' : genLoop n (nextMonth cm) e = [] := genLoop_nil h2
        have hcmIdx := (dateLe_day1_iff hd1 hcm he).mp hg
        have hnotIdx : ¬ monthIdx (nextMonth cm) ≤ monthIdx e := by
          intro hc
          rw [(dateLe_day1_iff hnd1 hnv he).mpr hc] at h2
          exact Bool.noConfusion h2
        have hcmb := hcm
        have heb := he
        simp only [Date.valid, Bool.and_eq_true, decide_eq_true_eq] at hcmb heb
        have hsame : e.year = cm.year ∧ e.month = cm.month := by
          simp only [monthIdx] at hcmIdx hnotIdx hnidx
          omega
        have hele : dateLe e ⟨cm.year, cm.month, daysInMonth cm.year cm.month⟩ = true := by
          obtain ⟨hy, hm⟩ := hsame
          rw [← hy, ← hm]
          exact dateLe_self_lom he
        have hmin : minDate ⟨cm.year, cm.month, daysInMonth cm.year cm.month⟩ e = e := by
          unfold minDate
          by_cases hc : dateLe ⟨cm.year, cm.month, daysInMonth cm.year cm.month⟩ e = true
          · rw [if_pos hc]; exact dateLe_antisymm hc hele
          · rw [if_neg hc]
        rw [hmin, hL']
        refine ⟨?_, ?_, ?_, ?_, ?_, ?_⟩
        · intro w hw
          rcases List.mem_cons.mp hw with rfl | hw'
          · exact ⟨hg, hsame.1.symm, hsame.2.symm, dateLe_refl cm, dateLe_refl e⟩
          · simp at hw'
        · intro d _
          simp [covers]
        · simp
        · simp
        · intro _; simp
        · intro w hw
          simp only [List.getLast?_singleton, Option.some.injEq] at hw
          rw [← hw]

theorem dateLe_fom_self {s : Date} (hs : s.valid = true) :
    dateLe (firstOfMonth s) s = true := by
  obtain ⟨y, m, d⟩ := s
  simp only [Date.valid, Bool.and_eq_true, decide_eq_true_eq] at hs
  simp only [firstOfMonth, dateLe, Bool.or_eq_true, Bool.and_eq_true,
    decide_eq_true_eq, beq_iff_eq, true_and]
  omega

theorem firstOfMonth_valid {s : Date} (hs : s.valid = true) :
    (firstOfMonth s).valid = true := by
  obtain ⟨y, m, d⟩ := s
  simp only [Date.valid, Bool.and_eq_true, decide_eq_true_eq] at hs ⊢
  have := daysInMonth_pos y m
  simp only [firstOfMonth]
  omega

/-- C1 (amended): for valid dates `start ≤ end`, `generate_monthly_ranges`
returns an ordered sequence of windows that are contiguous (each window
starts the day after the previous one ends), non-overlapping, and cover
exactly the interval from the first day of `start`'s month to `end`; each
window lies within a single calendar month, the window list is non-empty,
the last window is clipped to `end`, and no emitted window has
`start > end`. -/
theorem c1_generate_monthly_ranges (s e : Date) (hs : s.valid = true)
    (he : e.valid = true) (hse : dateLe s e = true) :
    (∀ w ∈ generate_monthly_ranges s e,
        dateLe w.1 w.2 = true ∧ w.1.year = w.2.year ∧ w.1.month = w.2.month) ∧
    (∀ d : Date, d.valid = true →
        covers (generate_monthly_ranges s e) d =
          (dateLe (firstOfMonth s) d && dateLe d e)) ∧
    List.Chain' (fun w1 w2 => succDay w1.2 = w2.1) (generate_monthly_ranges s e) ∧
    (generate_monthly_ranges s e).Pairwise (fun w1 w2 => dateLt w1.2 w2.1 = true) ∧
    generate_monthly_ranges s e ≠ [] ∧
    (∀ w, (generate_monthly_ranges s e).getLast? = some w → w.2 = e) := by
  have hfse : dateLe (firstOfMonth s) e = true :=
    dateLe_trans (dateLe_fom_self hs) hse
  have hspec := genLoop_spec (12 * e.year + e.month + 1) e he (firstOfMonth s)
    (firstOfMonth_valid hs) rfl (by omega)
  obtain ⟨h1, h2, h3, h4, h5, h6⟩ := hspec
  exact ⟨fun w hw => ⟨(h1 w hw).1, (h1 w hw).2.1, (h1 w hw).2.2.1⟩,
    h2, h3, h4, h5 hfse, h6⟩

/-- Witness for the amended C1 theorem at the concrete range
2021-01-15 to 2021-03-10. -/
theorem c1_generate_monthly_ranges_witness :
    Date.valid ⟨2021, 1, 15⟩ = true ∧ Date.valid ⟨2021, 3, 10⟩ = true ∧
    dateLe ⟨2021, 1, 15⟩ ⟨2021, 3, 10⟩ = true ∧
    ((∀ w ∈ generate_monthly_ranges ⟨2021, 1, 15⟩ ⟨2021, 3, 10⟩,
        dateLe w.1 w.2 = true ∧ w.1.year = w.2.year ∧ w.1.month = w.2.month) ∧
    (∀ d : Date, d.valid = true →
        covers (generate_monthly_ranges ⟨2021, 1, 15⟩ ⟨2021, 3, 10⟩) d =
          (dateLe (firstOfMonth ⟨2021, 1, 15⟩) d && dateLe d ⟨2021, 3, 10⟩)) ∧
    List.Chain' (fun w1 w2 => succDay w1.2 = w2.1)
      (generate_monthly_ranges ⟨2021, 1, 15⟩ ⟨2021, 3, 10⟩) ∧
    (generate_monthly_ranges ⟨2021, 1, 15⟩ ⟨2021, 3, 10⟩).Pairwise
      (fun w1 w2 => dateLt w1.2 w2.1 = true) ∧
    generate_monthly_ranges ⟨2021, 1, 15⟩ ⟨2021, 3, 10⟩ ≠ [] ∧
    (∀ w, (generate_monthly_ranges ⟨2021, 1, 15⟩ ⟨2021, 3, 10⟩).getLast? = some w →
        w.2 = ⟨2021, 3, 10⟩)) :=
  ⟨by decide, by decide, by decide,
    c1_generate_monthly_ranges ⟨2021, 1, 15⟩ ⟨2021, 3, 10⟩
      (by decide) (by decide) (by decide)⟩

/-- C1 as literally stated is false: for start 2021-01-15 and end
2021-01-20 the emitted windows cover 2021-01-05, a date strictly before
`start`, because the loop starts at `start.replace(day=1)`; so the windows
do not cover exactly the interval from `start` to `end`. -/
theorem c1_counterexample :
    dateLe ⟨2021, 1, 15⟩ ⟨2021, 1, 20⟩ = true ∧
    covers (generate_monthly_ranges ⟨2021, 1, 15⟩ ⟨2021, 1, 20⟩) ⟨2021, 1, 5⟩ = true ∧
    dateLe ⟨2021, 1, 15⟩ ⟨2021, 1, 5⟩ = false ∧
    Date.valid ⟨2021, 1, 5⟩ = true := by
  decide

/-! Order facts for the sort keys of the pandas sorts. -/

theorem dateLt_trans {a b c : Date} (h1 : dateLt a b = true)
    (h2 : dateLt b c = true) : dateLt a c = true := by
  cases a; cases b; cases c
  simp only [dateLt, Bool.or_eq_true, Bool.and_eq_true, decide_eq_true_eq,
    beq_iff_eq, true_and] at *
  omega

theorem dateLt_irrefl (a : Date) : dateLt a a = false := by
  cases a
  simp [dateLt]

theorem dateLt_trichotomy (a b : Date) :
    dateLt a b = true ∨ a = b ∨ dateLt b a = true := by
  cases a; cases b
  simp only [dateLt, Date.mk.injEq, Bool.or_eq_true, Bool.and_eq_true,
    decide_eq_true_eq, beq_iff_eq, true_and]
  omega

theorem optDateLt_trans {a b c : Option Date} (h1 : optDateLt a b = true)
    (h2 : optDateLt b c = true) : optDateLt a c = true := by
  cases a with
  | none => simp [optDateLt] at h1
  | some x =>
    cases c with
    | none => cases b <;> rfl
    | some z =>
      cases b with
      | none => simp [optDateLt] at h2
      | some y =>
        simp only [optDateLt] at h1 h2 ⊢
        exact dateLt_trans h1 h2

theorem optDateLt_irrefl (a : Option Date) : optDateLt a a = false := by
  cases a with
  | none => rfl
  | some d => simp only [optDateLt]; exact dateLt_irrefl d

theorem optDateLt_trichotomy (a b : Option Date) :
    optDateLt a b = true ∨ a = b ∨ optDateLt b a = true := by
  cases a with
  | none =>
    cases b with
    | none => exact Or.inr (Or.inl rfl)
    | some y => exact Or.inr (Or.inr rfl)
  | some x =>
    cases b with
    | none => exact Or.inl rfl
    | some y =>
      simp only [optDateLt, Option.some.injEq]
      rcases dateLt_trichotomy x y with h | h | h
      · exact Or.inl h
      · exact Or.inr (Or.inl h)
      · exact Or.inr (Or.inr h)

instance : IsTrans TaggedRecord recLe := by
  constructor
  intro a b c hab hbc
  unfold recLe at *
  rcases hab with h1 | ⟨e1, h1'⟩ <;> rcases hbc with h2 | ⟨e2, h2'⟩
  · exact Or.inl (optDateLt_trans h1 h2)
  · rw [← e2]
    exact Or.inl h1
  · rw [e1]
    exact Or.inl h2
  · refine Or.inr ⟨e1.trans e2, ?_⟩
    rcases h1' with hs1 | ⟨es1, hm1⟩ <;> rcases h2' with hs2 | ⟨es2, hm2⟩
    · exact Or.inl (lt_trans hs1 hs2)
    · exact Or.inl (by rw [← es2]; exact hs1)
    · exact Or.inl (by rw [es1]; exact hs2)
    · exact Or.inr ⟨es1.trans es2, le_trans hm1 hm2⟩

instance : IsTotal TaggedRecord recLe := by
  constructor
  intro a b
  unfold recLe
  rcases optDateLt_trichotomy a.record.data b.record.data with h | h | h
  · exact Or.inl (Or.inl h)
  · rcases lt_trichotomy a.indicator_key b.indicator_key with hs | hs | hs
    · exact Or.inl (Or.inr ⟨h, Or.inl hs⟩)
    · rcases le_total a.month b.month with hm | hm
      · exact Or.inl (Or.inr ⟨h, Or.inr ⟨hs, hm⟩⟩)
      · exact Or.inr (Or.inr ⟨h.symm, Or.inr ⟨hs.symm, hm⟩⟩)
    · exact Or.inr (Or.inr ⟨h.symm, Or.inl hs⟩)
  · exact Or.inr (Or.inl h)

instance : IsTrans SummaryRow rowLe := by
  constructor
  intro a b c hab hbc
  unfold rowLe at *
  rcases hab with h1 | ⟨e1, h1'⟩ <;> rcases hbc with h2 | ⟨e2, h2'⟩
  · exact Or.inl (dateLt_trans h1 h2)
  · rw [← e2]
    exact Or.inl h1
  · rw [e1]
    exact Or.inl h2
  · exact Or.inr ⟨e1.trans e2, le_trans h1' h2'⟩

instance : IsTotal SummaryRow rowLe := by
  constructor
  intro a b
  unfold rowLe
  rcases dateLt_trichotomy a.date b.date with h | h | h
  · exact Or.inl (Or.inl h)
  · rcases le_total a.crop b.crop with hc | hc
    · exact Or.inl (Or.inr ⟨h, hc⟩)
    · exact Or.inr (Or.inr ⟨h.symm, hc⟩)
  · exact Or.inr (Or.inl h)

instance : IsTrans CleanRow cleanRowLe := by
  constructor
  intro a b c hab hbc
  unfold cleanRowLe at *
  exact dateLe_trans hab hbc

instance : IsTotal CleanRow cleanRowLe := by
  constructor
  intro a b
  unfold cleanRowLe
  exact dateLe_total a.date b.date

/-! Properties of the sort-then-drop-duplicates reconciliation step. -/

theorem mem_of_mem_dropDuplicates {l : List TaggedRecord} {r : TaggedRecord}
    (h : r ∈ dropDuplicatesKeepLast l) : r ∈ l := by
  induction l with
  | nil => simp [dropDuplicatesKeepLast] at h
  | cons x xs ih =>
    simp only [dropDuplicatesKeepLast] at h
    by_cases hc : xs.any (fun s => decide (recKey s = recKey x)) = true
    · rw [if_pos hc] at h
      exact List.mem_cons_of_mem x (ih h)
    · rw [if_neg hc] at h
      rcases List.mem_cons.mp h with rfl | h'
      · exact List.mem_cons_self _ _
      · exact List.mem_cons_of_mem x (ih h')

theorem countP_dropDuplicates (k : Option Date × String × Option ℚ) :
    ∀ l : List TaggedRecord,
      (dropDuplicatesKeepLast l).countP (fun r => decide (recKey r = k)) =
        if l.any (fun r => decide (recKey r = k)) = true then 1 else 0 := by
  intro l
  induction l with
  | nil => simp [dropDuplicatesKeepLast]
  | cons x xs ih =>
    simp only [dropDuplicatesKeepLast]
    by_cases hd : xs.any (fun s => decide (recKey s = recKey x)) = true
    · rw [if_pos hd, ih]
      by_cases hk : recKey x = k
      · have hxs : xs.any (fun r => decide (recKey r = k)) = true := by
          rw [List.any_eq_true] at hd ⊢
          obtain ⟨s, hs, hsk⟩ := hd
          exact ⟨s, hs, decide_eq_true ((of_decide_eq_true hsk).trans hk)⟩
        simp [List.any_cons, hxs]
      · simp [List.any_cons, hk]
    · rw [if_neg hd, List.countP_cons, ih]
      by_cases hk : recKey x = k
      · have hxs : xs.any (fun r => decide (recKey r = k)) = false := by
          rw [Bool.eq_false_iff]
          intro hc
          apply hd
          rw [List.any_eq_true] at hc ⊢
          obtain ⟨s, hs, hsk⟩ := hc
          exact ⟨s, hs, decide_eq_true ((of_decide_eq_true hsk).trans hk.symm)⟩
        simp [List.any_cons, hk, hxs]
      · simp [List.any_cons, hk]

theorem recKey_eq_parts {r s : TaggedRecord} (h : recKey r = recKey s) :
    r.record.data = s.record.data ∧ r.indicator_key = s.indicator_key := by
  simp only [recKey, Prod.mk.injEq] at h
  exact ⟨h.1, h.2.1⟩

theorem recLe_month_le {r s : TaggedRecord} (hd : r.record.data = s.record.data)
    (hi : r.indicator_key = s.indicator_key) (h : recLe r s) :
    r.month ≤ s.month := by
  unfold recLe at h
  rcases h with h | ⟨_, h'⟩
  · rw [hd] at h
    rw [optDateLt_irrefl] at h
    exact Bool.noConfusion h
  · rcases h' with h'' | ⟨_, hm⟩
    · rw [hi] at h''
      exact absurd h'' (lt_irrefl _)
    · exact hm

theorem month_max_of_sorted :
    ∀ l : List TaggedRecord, l.Sorted recLe →
      ∀ r ∈ dropDuplicatesKeepLast l, ∀ s ∈ l, recKey s = recKey r →
        s.month ≤ r.month := by
  intro l
  induction l with
  | nil =>
    intro _ r hr
    simp [dropDuplicatesKeepLast] at hr
  | cons x xs ih =>
    intro hs r hr s hsmem hk
    have hhead : ∀ y ∈ xs, recLe x y := (List.pairwise_cons.mp hs).1
    have hs' : xs.Sorted recLe := (List.pairwise_cons.mp hs).2
    simp only [dropDuplicatesKeepLast] at hr
    by_cases hd : xs.any (fun s' => decide (recKey s' = recKey x)) = true
    · rw [if_pos hd] at hr
      rcases List.mem_cons.mp hsmem with rfl | hsmem'
      · have hrxs : r ∈ xs := mem_of_mem_dropDuplicates hr
        obtain ⟨hdata, hik⟩ := recKey_eq_parts hk
        exact recLe_month_le hdata hik (hhead r hrxs)
      · exact ih hs' r hr s hsmem' hk
    · rw [if_neg hd] at hr
      rcases List.mem_cons.mp hr with rfl | hr'
      · rcases List.mem_cons.mp hsmem with rfl | hsmem'
        · exact le_refl _
        · exact absurd (List.any_eq_true.mpr ⟨s, hsmem', decide_eq_true hk⟩) hd
      · rcases List.mem_cons.mp hsmem with rfl | hsmem'
        · exact absurd
            (List.any_eq_true.mpr
              ⟨r, mem_of_mem_dropDuplicates hr', decide_eq_true hk.symm⟩) hd
        · exact ih hs' r hr' s hsmem' hk

theorem sortRecords_sorted (l : List TaggedRecord) :
    (sortRecords l).Sorted recLe :=
  List.sorted_insertionSort recLe l

theorem dropDuplicates_sublist :
    ∀ l : List TaggedRecord, List.Sublist (dropDuplicatesKeepLast l) l := by
  intro l
  induction l with
  | nil => simp [dropDuplicatesKeepLast]
  | cons x xs ih =>
    simp only [dropDuplicatesKeepLast]
    by_cases hd : xs.any (fun s => decide (recKey s = recKey x)) = true
    · rw [if_pos hd]
      exact ih.cons x
    · rw [if_neg hd]
      exact ih.cons₂ x

theorem dropDuplicates_idem :
    ∀ l : List TaggedRecord,
      dropDuplicatesKeepLast (dropDuplicatesKeepLast l) = dropDuplicatesKeepLast l := by
  intro l
  induction l with
  | nil => rfl
  | cons x xs ih =>
    simp only [dropDuplicatesKeepLast]
    by_cases hd : xs.any (fun s => decide (recKey s = recKey x)) = true
    · rw [if_pos hd]
      exact ih
    · rw [if_neg hd]
      have hno : (dropDuplicatesKeepLast xs).any
          (fun s => decide (recKey s = recKey x)) = false := by
        rw [Bool.eq_false_iff]
        intro hc
        apply hd
        rw [List.any_eq_true] at hc ⊢
        obtain ⟨s, hsm, hsk⟩ := hc
        exact ⟨s, mem_of_mem_dropDuplicates hsm, hsk⟩
      simp only [dropDuplicatesKeepLast]
      rw [if_neg (by rw [hno]; exact Bool.false_ne_true), ih]

/-- C2: after sorting ascending by `(Data, _indicator_key, _month)` and
dropping duplicates of the key `(Data, _indicator_key, Valor)` keeping the
last occurrence, every key present in the input survives exactly once,
every survivor is one of the input records, and the survivor of each key
carries the latest `_month` window label among that key's occurrences. -/
theorem c2_dedup_latest_window (l : List TaggedRecord)
    (h : hasDataColumn l = true) :
    (∀ k : Option Date × String × Option ℚ,
        l.any (fun r => decide (recKey r = k)) = true →
        (dedupStep l).countP (fun r => decide (recKey r = k)) = 1) ∧
    (∀ r ∈ dedupStep l, r ∈ l) ∧
    (∀ r ∈ dedupStep l, ∀ s ∈ l, recKey s = recKey r → s.month ≤ r.month) := by
  have hstep : dedupStep l = dropDuplicatesKeepLast (sortRecords l) := by
    unfold dedupStep
    rw [if_pos h]
  rw [hstep]
  refine ⟨?_, ?_, ?_⟩
  · intro k hk
    rw [countP_dropDuplicates k (sortRecords l), if_pos ?_]
    rw [List.any_eq_true] at hk ⊢
    obtain ⟨r, hr, hrk⟩ := hk
    refine ⟨r, ?_, hrk⟩
    unfold sortRecords
    rw [List.mem_insertionSort]
    exact hr
  · intro r hr
    have h1 := mem_of_mem_dropDuplicates hr
    unfold sortRecords at h1
    rw [List.mem_insertionSort] at h1
    exact h1
  · intro r hr s hsmem hk
    refine month_max_of_sorted (sortRecords l) (sortRecords_sorted l) r hr s ?_ hk
    unfold sortRecords
    rw [List.mem_insertionSort]
    exact hsmem

/-- Witness for C2 on two records sharing the `(Data, _indicator_key,
Valor)` key from adjacent monthly windows. -/
theorem c2_dedup_latest_window_witness :
    hasDataColumn
      [⟨⟨some ⟨2021, 1, 31⟩, some 40, some "Percentual", some 51, some "2020/2021"⟩,
          "Soy", "Planting", "soy_planting", "2021-01"⟩,
        ⟨⟨some ⟨2021, 1, 31⟩, some 40, some "Percentual", some 51, some "2020/2021"⟩,
          "Soy", "Planting", "soy_planting", "2021-02"⟩] = true ∧
    ((∀ k : Option Date × String × Option ℚ,
        ([⟨⟨some ⟨2021, 1, 31⟩, some 40, some "Percentual", some 51, some "2020/2021"⟩,
            "Soy", "Planting", "soy_planting", "2021-01"⟩,
          ⟨⟨some ⟨2021, 1, 31⟩, some 40, some "Percentual", some 51, some "2020/2021"⟩,
            "Soy", "Planting", "soy_planting", "2021-02"⟩] :
              List TaggedRecord).any (fun r => decide (recKey r = k)) = true →
        (dedupStep
          [⟨⟨some ⟨2021, 1, 31⟩, some 40, some "Percentual", some 51, some "2020/2021"⟩,
            "Soy", "Planting", "soy_planting", "2021-01"⟩,
          ⟨⟨some ⟨2021, 1, 31⟩, some 40, some "Percentual", some 51, some "2020/2021"⟩,
            "Soy", "Planting", "soy_planting", "2021-02"⟩]).countP
          (fun r => decide (recKey r = k)) = 1) ∧
    (∀ r ∈ dedupStep
        [⟨⟨some ⟨2021, 1, 31⟩, some 40, some "Percentual", some 51, some "2020/2021"⟩,
          "Soy", "Planting", "soy_planting", "2021-01"⟩,
        ⟨⟨some ⟨2021, 1, 31⟩, some 40, some "Percentual", some 51, some "2020/2021"⟩,
          "Soy", "Planting", "soy_planting", "2021-02"⟩],
        r ∈ [⟨⟨some ⟨2021, 1, 31⟩, some 40, some "Percentual", some 51, some "2020/2021"⟩,
          "Soy", "Planting", "soy_planting", "2021-01"⟩,
        ⟨⟨some ⟨2021, 1, 31⟩, some 40, some "Percentual", some 51, some "2020/2021"⟩,
          "Soy", "Planting", "soy_planting", "2021-02"⟩]) ∧
    (∀ r ∈ dedupStep
        [⟨⟨some ⟨2021, 1, 31⟩, some 40, some "Percentual", some 51, some "2020/2021"⟩,
          "Soy", "Planting", "soy_planting", "2021-01"⟩,
        ⟨⟨some ⟨2021, 1, 31⟩, some 40, some "Percentual", some 51, some "2020/2021"⟩,
          "Soy", "Planting", "soy_planting", "2021-02"⟩],
        ∀ s ∈ [⟨⟨some ⟨2021, 1, 31⟩, some 40, some "Percentual", some 51, some "2020/2021"⟩,
          "Soy", "Planting", "soy_planting", "2021-01"⟩,
        ⟨⟨some ⟨2021, 1, 31⟩, some 40, some "Percentual", some 51, some "2020/2021"⟩,
          "Soy", "Planting", "soy_planting", "2021-02"⟩],
          recKey s = recKey r → s.month ≤ r.month)) :=
  ⟨by decide, c2_dedup_latest_window _ (by decide)⟩

/-- C7: the sort-then-drop-duplicates step of `extract_historical_series`
is idempotent: applied to its own output it returns that output
unchanged. -/
theorem c7_dedup_idempotent (l : List TaggedRecord) :
    dedupStep (dedupStep l) = dedupStep l := by
  by_cases h : hasDataColumn l = true
  · have hstep : dedupStep l = dropDuplicatesKeepLast (sortRecords l) := by
      unfold dedupStep
      rw [if_pos h]
    rw [hstep]
    have hcol : hasDataColumn (dropDuplicatesKeepLast (sortRecords l)) = true := by
      unfold hasDataColumn at h ⊢
      rw [List.any_eq_true] at h ⊢
      obtain ⟨r, hr, hrsome⟩ := h
      have hks : (sortRecords l).any (fun s => decide (recKey s = recKey r)) = true := by
        rw [List.any_eq_true]
        refine ⟨r, ?_, decide_eq_true rfl⟩
        unfold sortRecords
        rw [List.mem_insertionSort]
        exact hr
      have hc := countP_dropDuplicates (recKey r) (sortRecords l)
      rw [if_pos hks] at hc
      have hpos : 0 < (dropDuplicatesKeepLast (sortRecords l)).countP
          (fun s => decide (recKey s = recKey r)) := by omega
      rw [List.countP_pos_iff] at hpos
      obtain ⟨s, hsm, hsp⟩ := hpos
      refine ⟨s, hsm, ?_⟩
      rw [(recKey_eq_parts (of_decide_eq_true hsp)).1]
      exact hrsome
    have hsorted : (dropDuplicatesKeepLast (sortRecords l)).Sorted recLe :=
      List.Pairwise.sublist (dropDuplicates_sublist _) (sortRecords_sorted l)
    have hresort : sortRecords (dropDuplicatesKeepLast (sortRecords l)) =
        dropDuplicatesKeepLast (sortRecords l) := by
      unfold sortRecords
      exact List.Sorted.insertionSort_eq hsorted
    unfold dedupStep
    rw [if_pos hcol, hresort]
    exact dropDuplicates_idem _
  · have hstep : dedupStep l = l := by
      unfold dedupStep
      rw [if_neg h]
    rw [hstep]
    exact hstep

/-- C10: when no fetched record carries the `Data` field, the frame has no
`Data` column, the guarded deduplication block is skipped entirely, and
every record (duplicates included) is retained for the transformation
step. -/
theorem c10_no_date_no_dedup (l : List TaggedRecord)
    (h : l.all (fun r => r.record.data.isNone) = true) :
    dedupStep l = l := by
  have hcol : hasDataColumn l = false := by
    unfold hasDataColumn
    rw [List.any_eq_false]
    intro r hr
    rw [List.all_eq_true] at h
    have hnone := h r hr
    rw [Option.isNone_iff_eq_none] at hnone
    rw [hnone]
    simp
  unfold dedupStep
  rw [if_neg (by rw [hcol]; exact Bool.false_ne_true)]

/-- Witness for C10: two identical records without a `Data` field both
survive the deduplication step. -/
theorem c10_no_date_no_dedup_witness :
    ([⟨⟨none, some 40, some "Percentual", none, none⟩,
        "Soy", "Planting", "soy_planting", "2021-01"⟩,
      ⟨⟨none, some 40, some "Percentual", none, none⟩,
        "Soy", "Planting", "soy_planting", "2021-01"⟩] :
          List TaggedRecord).all (fun r => r.record.data.isNone) = true ∧
    dedupStep
      [⟨⟨none, some 40, some "Percentual", none, none⟩,
        "Soy", "Planting", "soy_planting", "2021-01"⟩,
      ⟨⟨none, some 40, some "Percentual", none, none⟩,
        "Soy", "Planting", "soy_planting", "2021-01"⟩] =
      [⟨⟨none, some 40, some "Percentual", none, none⟩,
        "Soy", "Planting", "soy_planting", "2021-01"⟩,
      ⟨⟨none, some 40, some "Percentual", none, none⟩,
        "Soy", "Planting", "soy_planting", "2021-01"⟩] :=
  ⟨by decide, c10_no_date_no_dedup _ (by decide)⟩

/-! Properties of the batched fetch stage. -/

theorem chunksGo_flatMap_map {α β : Type} (g : α → β) (n : Nat) (hn : 0 < n) :
    ∀ (fuel : Nat) (l : List α), l.length ≤ fuel →
      (chunksGo n fuel l).flatMap (fun b => b.map g) = l.map g := by
  intro fuel
  induction fuel with
  | zero =>
    intro l hl
    have : l = [] := List.eq_nil_of_length_eq_zero (Nat.le_zero.mp hl)
    subst this
    rfl
  | succ f ihf =>
    intro l hl
    cases l with
    | nil => rfl
    | cons x xs =>
      simp only [chunksGo, List.flatMap_cons]
      have hl' : xs.length + 1 ≤ f + 1 := by simpa using hl
      rw [ihf ((x :: xs).drop n)
        (by simp only [List.length_drop, List.length_cons]; omega)]
      rw [← List.map_append, List.take_append_drop]

theorem fetchOutcomes_eq_map (reqs : List RequestInfo)
    (transport : RequestInfo → Except String HTTPResponse) :
    fetchOutcomes reqs transport =
      reqs.map (fun r => make_request r (transport r)) := by
  unfold fetchOutcomes toBatches
  exact chunksGo_flatMap_map _ batch_size (by decide) reqs.length reqs (le_refl _)

theorem foldl_processOutcome (outs : List Outcome) :
    ∀ (d : List TaggedRecord) (s f t lh : Nat),
      outs.foldl processOutcome (d, ⟨s, f, t, lh⟩) =
        (d ++ outs.flatMap Outcome.records,
          ⟨s + outs.countP Outcome.isSuccess,
           f + outs.countP (fun o => !o.isSuccess),
           t + (outs.map Outcome.recordCount).sum,
           lh + outs.countP (fun o => o.isSuccess && decide (10 ≤ o.recordCount))⟩) := by
  induction outs with
  | nil =>
    intro d s f t lh
    simp
  | cons o os ih =>
    intro d s f t lh
    cases o with
    | success data c a m rc =>
      simp only [List.foldl_cons, processOutcome]
      rw [ih]
      have hsucc : Outcome.isSuccess (Outcome.success data c a m rc) = true := rfl
      have hrc : Outcome.recordCount (Outcome.success data c a m rc) = rc := rfl
      simp only [Prod.mk.injEq, BatchStats.mk.injEq]
      refine ⟨?_, ?_, ?_, ?_, ?_⟩
      · rw [List.flatMap_cons, List.append_assoc]
        rfl
      · rw [List.countP_cons, hsucc, if_pos rfl]
        omega
      · rw [List.countP_cons, if_neg ?_]
        · omega
        · rw [hsucc]
          simp
      · rw [List.map_cons, List.sum_cons, hrc]
        omega
      · rw [List.countP_cons]
        have hp : (Outcome.isSuccess (Outcome.success data c a m rc) &&
            decide (10 ≤ Outcome.recordCount (Outcome.success data c a m rc))) =
              decide (10 ≤ rc) := by
          rw [hsucc, hrc, Bool.true_and]
        rw [hp]
        by_cases h10 : 10 ≤ rc
        · rw [if_pos (decide_eq_true h10), if_pos h10]
          omega
        · rw [if_neg h10, if_neg ?_]
          · omega
          · simp [h10]
    | failure err ri =>
      simp only [List.foldl_cons, processOutcome]
      rw [ih]
      have hfail : Outcome.isSuccess (Outcome.failure err ri) = false := rfl
      simp only [Prod.mk.injEq, BatchStats.mk.injEq]
      refine ⟨?_, ?_, ?_, ?_, ?_⟩
      · rw [List.flatMap_cons]
        rfl
      · rw [List.countP_cons, if_neg ?_]
        · omega
        · rw [hfail]
          simp
      · rw [List.countP_cons, if_pos ?_]
        · omega
        · rw [hfail]
          rfl
      · rw [List.map_cons, List.sum_cons]
        have h0 : Outcome.recordCount (Outcome.failure err ri) = 0 := rfl
        rw [h0]
        omega
      · rw [List.countP_cons, if_neg ?_]
        · omega
        · rw [hfail]
          simp

theorem collectOutcomes_spec (outs : List Outcome) :
    collectOutcomes outs =
      (outs.flatMap Outcome.records,
        ⟨outs.countP Outcome.isSuccess,
         outs.countP (fun o => !o.isSuccess),
         (outs.map Outcome.recordCount).sum,
         outs.countP (fun o => o.isSuccess && decide (10 ≤ o.recordCount))⟩) := by
  unfold collectOutcomes
  rw [foldl_processOutcome]
  simp

/-- C3: the batched fetch stage yields exactly one outcome per task of the
worklist (in worklist order, so none is dropped), a task whose transport
raises yields a `failure` outcome carrying the exception text and the
originating task, and a task answered with a non-2xx status yields a
`failure` outcome carrying `HTTP <status>` and the task; no case raises or
aborts the run, since `make_request` is total. -/
theorem c3_one_outcome_per_task (reqs : List RequestInfo)
    (transport : RequestInfo → Except String HTTPResponse) :
    (fetchOutcomes reqs transport).length = reqs.length ∧
    fetchOutcomes reqs transport =
      reqs.map (fun r => make_request r (transport r)) ∧
    (∀ (req : RequestInfo) (e : String),
        make_request req (Except.error e) = Outcome.failure e req) ∧
    (∀ (req : RequestInfo) (r : HTTPResponse), r.status < 200 ∨ 300 ≤ r.status →
        make_request req (Except.ok r) =
          Outcome.failure ("HTTP " ++ toString r.status) req) := by
  refine ⟨?_, fetchOutcomes_eq_map reqs transport, fun req e => rfl, ?_⟩
  · rw [fetchOutcomes_eq_map, List.length_map]
  · intro req r hr
    simp only [make_request]
    rw [if_neg (by omega)]

/-- Witness for C3 on a one-task worklist whose transport times out, plus
a 404 response. -/
theorem c3_one_outcome_per_task_witness :
    (fetchOutcomes
      [⟨"soy_planting", "708192508889268224", "Soy", "Planting", "2021-01-01",
        "2021-01-31", "2021-01", "2021-01-01 to 2021-01-31"⟩]
      (fun _ => Except.error "timeout")).length = 1 ∧
    make_request
      ⟨"soy_planting", "708192508889268224", "Soy", "Planting", "2021-01-01",
        "2021-01-31", "2021-01", "2021-01-01 to 2021-01-31"⟩
      (Except.error "timeout") =
      Outcome.failure "timeout"
        ⟨"soy_planting", "708192508889268224", "Soy", "Planting", "2021-01-01",
          "2021-01-31", "2021-01", "2021-01-01 to 2021-01-31"⟩ ∧
    make_request
      ⟨"soy_planting", "708192508889268224", "Soy", "Planting", "2021-01-01",
        "2021-01-31", "2021-01", "2021-01-01 to 2021-01-31"⟩
      (Except.ok ⟨404, Body.other⟩) =
      Outcome.failure ("HTTP " ++ toString 404)
        ⟨"soy_planting", "708192508889268224", "Soy", "Planting", "2021-01-01",
          "2021-01-31", "2021-01", "2021-01-01 to 2021-01-31"⟩ := by
  obtain ⟨h1, _, h3, h4⟩ := c3_one_outcome_per_task
    [⟨"soy_planting", "708192508889268224", "Soy", "Planting", "2021-01-01",
      "2021-01-31", "2021-01", "2021-01-01 to 2021-01-31"⟩]
    (fun _ => Except.error "timeout")
  exact ⟨h1.trans rfl, h3 _ "timeout", h4 _ ⟨404, Body.other⟩ (by decide)⟩

/-- C6: the limit-hit counter of the collection loop counts exactly the
success outcomes with `record_count >= 10` (so a count below 10 is never
flagged), success outcomes are counted as successes with their records
merged into `all_data`, and a 200-response with at least 10 extracted
records produces a success outcome whose `record_count` is at least 10;
below 10 the outcome never satisfies the limit-hit predicate. -/
theorem c6_truncation_flag (reqs : List RequestInfo)
    (transport : RequestInfo → Except String HTTPResponse) :
    ((collectOutcomes (fetchOutcomes reqs transport)).2.limit_hits =
      (fetchOutcomes reqs transport).countP
        (fun o => o.isSuccess && decide (10 ≤ o.recordCount))) ∧
    ((collectOutcomes (fetchOutcomes reqs transport)).2.success =
      (fetchOutcomes reqs transport).countP Outcome.isSuccess) ∧
    ((collectOutcomes (fetchOutcomes reqs transport)).1 =
      (fetchOutcomes reqs transport).flatMap Outcome.records) ∧
    (∀ (req : RequestInfo) (r : HTTPResponse), r.status = 200 →
        10 ≤ (extractRecords r.body).length →
        (make_request req (Except.ok r)).isSuccess = true ∧
        10 ≤ (make_request req (Except.ok r)).recordCount) ∧
    (∀ (req : RequestInfo) (r : HTTPResponse), r.status = 200 →
        (extractRecords r.body).length < 10 →
        ((make_request req (Except.ok r)).isSuccess &&
          decide (10 ≤ (make_request req (Except.ok r)).recordCount)) = false) := by
  rw [collectOutcomes_spec]
  refine ⟨rfl, rfl, rfl, ?_, ?_⟩
  · intro req r h200 h10
    have hmr : make_request req (Except.ok r) =
        Outcome.success
          ((extractRecords r.body).map (fun a =>
            TaggedRecord.mk a req.crop req.activity req.indicator_key req.month_label))
          req.crop req.activity req.month_label
          ((extractRecords r.body).map (fun a =>
            TaggedRecord.mk a req.crop req.activity req.indicator_key
              req.month_label)).length := by
      simp only [make_request]
      rw [if_pos h200]
    rw [hmr]
    refine ⟨rfl, ?_⟩
    show 10 ≤ ((extractRecords r.body).map _).length
    rw [List.length_map]
    exact h10
  · intro req r h200 hlt
    have hmr : make_request req (Except.ok r) =
        Outcome.success
          ((extractRecords r.body).map (fun a =>
            TaggedRecord.mk a req.crop req.activity req.indicator_key req.month_label))
          req.crop req.activity req.month_label
          ((extractRecords r.body).map (fun a =>
            TaggedRecord.mk a req.crop req.activity req.indicator_key
              req.month_label)).length := by
      simp only [make_request]
      rw [if_pos h200]
    rw [hmr]
    have hc : Outcome.recordCount (Outcome.success
        ((extractRecords r.body).map (fun a =>
          TaggedRecord.mk a req.crop req.activity req.indicator_key req.month_label))
        req.crop req.activity req.month_label
        ((extractRecords r.body).map (fun a =>
          TaggedRecord.mk a req.crop req.activity req.indicator_key
            req.month_label)).length) =
        ((extractRecords r.body).map (fun a =>
          TaggedRecord.mk a req.crop req.activity req.indicator_key
            req.month_label)).length := rfl
    rw [hc, Bool.and_eq_false_iff]
    right
    rw [decide_eq_false_iff_not]
    rw [List.length_map]
    omega

/-- Witness for C6: a single task answered by a 200 response carrying
exactly 10 records is counted as one limit hit. -/
theorem c6_truncation_flag_witness :
    ((collectOutcomes (fetchOutcomes
        [⟨"soy_planting", "708192508889268224", "Soy", "Planting", "2021-01-01",
          "2021-01-31", "2021-01", "2021-01-01 to 2021-01-31"⟩]
        (fun _ => Except.ok ⟨200,
          Body.list (List.replicate 10 ⟨none, none, none, none, none⟩)⟩))).2.limit_hits =
      (fetchOutcomes
        [⟨"soy_planting", "708192508889268224", "Soy", "Planting", "2021-01-01",
          "2021-01-31", "2021-01", "2021-01-01 to 2021-01-31"⟩]
        (fun _ => Except.ok ⟨200,
          Body.list (List.replicate 10 ⟨none, none, none, none, none⟩)⟩)).countP
        (fun o => o.isSuccess && decide (10 ≤ o.recordCount))) ∧
    (make_request
      ⟨"soy_planting", "708192508889268224", "Soy", "Planting", "2021-01-01",
        "2021-01-31", "2021-01", "2021-01-01 to 2021-01-31"⟩
      (Except.ok ⟨200,
        Body.list (List.replicate 10 ⟨none, none, none, none, none⟩)⟩)).isSuccess =
        true ∧
    10 ≤ (make_request
      ⟨"soy_planting", "708192508889268224", "Soy", "Planting", "2021-01-01",
        "2021-01-31", "2021-01", "2021-01-01 to 2021-01-31"⟩
      (Except.ok ⟨200,
        Body.list (List.replicate 10 ⟨none, none, none, none, none⟩)⟩)).recordCount := by
  obtain ⟨h1, _, _, h4, _⟩ := c6_truncation_flag
    [⟨"soy_planting", "708192508889268224", "Soy", "Planting", "2021-01-01",
      "2021-01-31", "2021-01", "2021-01-01 to 2021-01-31"⟩]
    (fun _ => Except.ok ⟨200,
      Body.list (List.replicate 10 ⟨none, none, none, none, none⟩)⟩)
  obtain ⟨h5, h6⟩ := h4
    ⟨"soy_planting", "708192508889268224", "Soy", "Planting", "2021-01-01",
      "2021-01-31", "2021-01", "2021-01-01 to 2021-01-31"⟩
    ⟨200, Body.list (List.replicate 10 ⟨none, none, none, none, none⟩)⟩
    (by decide) (by decide)
  exact ⟨h1, h5, h6⟩

/-- C9: when authentication fails, `extract` returns the distinct
`Authentication failed` result with `success = False`; no fetch task is
built or attempted and no per-task outcome (hence no per-task failure)
exists. -/
theorem c9_auth_failure (env : RunEnv) (h : env.authOk = false) :
    extract env =
      { success := false, error := some "Authentication failed",
        tasksAttempted := 0, outcomes := [] } := by
  unfold extract
  rw [h]
  simp

/-- Witness for C9 at a concrete unauthenticated environment. -/
theorem c9_auth_failure_witness :
    (RunEnv.mk false (fun _ => Except.error "down") ⟨2021, 1, 1⟩ ⟨2021, 2, 1⟩).authOk =
      false ∧
    extract (RunEnv.mk false (fun _ => Except.error "down") ⟨2021, 1, 1⟩ ⟨2021, 2, 1⟩) =
      { success := false, error := some "Authentication failed",
        tasksAttempted := 0, outcomes := [] } :=
  ⟨rfl, c9_auth_failure _ rfl⟩

/-- C8 as stated is false: when no fetched record carries the
`UnidadeDescricao` field, the guarded filter is skipped and a record with
no percentage unit is retained by the transformation step. -/
theorem c8_counterexample :
    unitFilter
      [⟨⟨some ⟨2021, 1, 15⟩, some 40, none, none, none⟩,
        "Soy", "Planting", "soy_planting", "2021-01"⟩] =
      [⟨⟨some ⟨2021, 1, 15⟩, some 40, none, none, none⟩,
        "Soy", "Planting", "soy_planting", "2021-01"⟩] ∧
    (⟨⟨some ⟨2021, 1, 15⟩, some 40, none, none, none⟩,
        "Soy", "Planting", "soy_planting", "2021-01"⟩ :
      TaggedRecord).record.unidadeDescricao ≠ some "Percentual" := by
  decide

/-- C8 (amended): whenever at least one fetched record carries the
`UnidadeDescricao` field (so the frame has the column), the transformation
step retains exactly the records whose unit is `Percentual`: every
retained record has that unit and every record of the input with that unit
is retained; records with any other (or missing) unit are removed. -/
theorem c8_unit_filter (l : List TaggedRecord) (h : hasUnitColumn l = true) :
    unitFilter l =
      l.filter (fun r => decide (r.record.unidadeDescricao = some "Percentual")) ∧
    (∀ r ∈ unitFilter l, r.record.unidadeDescricao = some "Percentual") ∧
    (∀ r ∈ l, r.record.unidadeDescricao = some "Percentual" → r ∈ unitFilter l) := by
  have hstep : unitFilter l =
      l.filter (fun r => decide (r.record.unidadeDescricao = some "Percentual")) := by
    unfold unitFilter
    rw [if_pos h]
  refine ⟨hstep, ?_, ?_⟩
  · intro r hr
    rw [hstep, List.mem_filter] at hr
    exact of_decide_eq_true hr.2
  · intro r hr hu
    rw [hstep, List.mem_filter]
    exact ⟨hr, decide_eq_true hu⟩

/-- Witness for the amended C8 on a mixed-unit record list. -/
theorem c8_unit_filter_witness :
    hasUnitColumn
      [⟨⟨some ⟨2021, 1, 15⟩, some 40, some "Percentual", none, none⟩,
        "Soy", "Planting", "soy_planting", "2021-01"⟩,
       ⟨⟨some ⟨2021, 1, 15⟩, some 9, some "R$/saca", none, none⟩,
        "Soy", "Planting", "soy_planting", "2021-01"⟩] = true ∧
    unitFilter
      [⟨⟨some ⟨2021, 1, 15⟩, some 40, some "Percentual", none, none⟩,
        "Soy", "Planting", "soy_planting", "2021-01"⟩,
       ⟨⟨some ⟨2021, 1, 15⟩, some 9, some "R$/saca", none, none⟩,
        "Soy", "Planting", "soy_planting", "2021-01"⟩] =
      ([⟨⟨some ⟨2021, 1, 15⟩, some 40, some "Percentual", none, none⟩,
        "Soy", "Planting", "soy_planting", "2021-01"⟩,
       ⟨⟨some ⟨2021, 1, 15⟩, some 9, some "R$/saca", none, none⟩,
        "Soy", "Planting", "soy_planting", "2021-01"⟩] :
          List TaggedRecord).filter
        (fun r => decide (r.record.unidadeDescricao = some "Percentual")) :=
  ⟨by decide,
    (c8_unit_filter
      [⟨⟨some ⟨2021, 1, 15⟩, some 40, some "Percentual", none, none⟩,
        "Soy", "Planting", "soy_planting", "2021-01"⟩,
       ⟨⟨some ⟨2021, 1, 15⟩, some 9, some "R$/saca", none, none⟩,
        "Soy", "Planting", "soy_planting", "2021-01"⟩] (by decide)).1⟩

/-! Properties of the pivoted percentage summary. -/

theorem countP_eq_one_of_nodup_mem {α : Type} [DecidableEq α] (k : α) :
    ∀ l : List α, l.Nodup → k ∈ l →
      l.countP (fun x => decide (x = k)) = 1 := by
  intro l
  induction l with
  | nil => intro _ hk; simp at hk
  | cons x xs ih =>
    intro hnd hk
    have hx : x ∉ xs := (List.nodup_cons.mp hnd).1
    have hnd' : xs.Nodup := (List.nodup_cons.mp hnd).2
    rw [List.countP_cons]
    rcases List.mem_cons.mp hk with rfl | hk'
    · rw [if_pos (decide_eq_true rfl)]
      have hz : xs.countP (fun x => decide (x = k)) = 0 := by
        rw [List.countP_eq_zero]
        intro a ha hc
        exact hx ((of_decide_eq_true hc) ▸ ha)
      omega
    · have hxk : x ≠ k := fun he => hx (he ▸ hk')
      rw [if_neg (by simp [hxk]), ih hnd' hk']

/-- C4: the summary has exactly one row per distinct group key present in
the input; every row's key comes from the input, and each activity column
holds the value `0` when the group has no observation of that activity
(never a missing value, the column always exists) and the mean of the
group's percentages for that activity otherwise. -/
theorem c4_summary_one_row_per_key (l : List Obs) (k : GroupKey)
    (hk : k ∈ l.map obsKey) :
    ((create_percentage_summary l).countP (fun row => decide (rowKey row = k)) = 1) ∧
    (∀ row ∈ create_percentage_summary l,
        rowKey row ∈ l.map obsKey ∧
        ∀ a : Activity,
          (activityVals l (rowKey row) a = [] → cellOf a row = 0) ∧
          (activityVals l (rowKey row) a ≠ [] →
            cellOf a row = (activityVals l (rowKey row) a).sum /
              ((activityVals l (rowKey row) a).length : ℚ))) := by
  constructor
  · rw [create_percentage_summary]
    rw [(List.perm_insertionSort rowLe
      (((l.map obsKey).dedup).map (mkSummaryRow l))).countP_eq]
    rw [List.countP_map]
    have hfun : ((fun row => decide (rowKey row = k)) ∘ mkSummaryRow l) =
        (fun k' => decide (k' = k)) := by
      funext k'
      rfl
    rw [hfun]
    exact countP_eq_one_of_nodup_mem k _ (List.nodup_dedup _) (List.mem_dedup.mpr hk)
  · intro row hrow
    rw [create_percentage_summary, List.mem_insertionSort, List.mem_map] at hrow
    obtain ⟨k', hk', hrow_eq⟩ := hrow
    subst hrow_eq
    constructor
    · exact List.mem_dedup.mp hk'
    · intro a
      have hcell : cellOf a (mkSummaryRow l k') = pivotCell l k' a := by
        cases a <;> rfl
      have hkey : rowKey (mkSummaryRow l k') = k' := rfl
      rw [hkey, hcell]
      constructor
      · intro hnil
        unfold pivotCell
        rw [hnil]
        rfl
      · intro hne
        unfold pivotCell
        rw [if_neg (by simp [List.length_eq_zero]; exact hne)]

/-- Witness for C4 at a one-observation table. -/
theorem c4_summary_one_row_per_key_witness :
    ((⟨2021, 1, 15⟩, 2021, 1, "Soy", "Mato Grosso", "2020/2021") : GroupKey) ∈
      ([⟨⟨2021, 1, 15⟩, 2021, 1, "Soy", "Mato Grosso", "2020/2021",
          Activity.Planting, 40⟩] : List Obs).map obsKey ∧
    ((create_percentage_summary
        [⟨⟨2021, 1, 15⟩, 2021, 1, "Soy", "Mato Grosso", "2020/2021",
          Activity.Planting, 40⟩]).countP
      (fun row => decide (rowKey row =
        ((⟨2021, 1, 15⟩, 2021, 1, "Soy", "Mato Grosso", "2020/2021") : GroupKey))) =
        1) ∧
    (∀ row ∈ create_percentage_summary
        [⟨⟨2021, 1, 15⟩, 2021, 1, "Soy", "Mato Grosso", "2020/2021",
          Activity.Planting, 40⟩],
        rowKey row ∈
          ([⟨⟨2021, 1, 15⟩, 2021, 1, "Soy", "Mato Grosso", "2020/2021",
            Activity.Planting, 40⟩] : List Obs).map obsKey ∧
        ∀ a : Activity,
          (activityVals
              [⟨⟨2021, 1, 15⟩, 2021, 1, "Soy", "Mato Grosso", "2020/2021",
                Activity.Planting, 40⟩] (rowKey row) a = [] → cellOf a row = 0) ∧
          (activityVals
              [⟨⟨2021, 1, 15⟩, 2021, 1, "Soy", "Mato Grosso", "2020/2021",
                Activity.Planting, 40⟩] (rowKey row) a ≠ [] →
            cellOf a row =
              (activityVals
                [⟨⟨2021, 1, 15⟩, 2021, 1, "Soy", "Mato Grosso", "2020/2021",
                  Activity.Planting, 40⟩] (rowKey row) a).sum /
              ((activityVals
                [⟨⟨2021, 1, 15⟩, 2021, 1, "Soy", "Mato Grosso", "2020/2021",
                  Activity.Planting, 40⟩] (rowKey row) a).length : ℚ))) := by
  refine ⟨by decide, ?_⟩
  exact c4_summary_one_row_per_key
    [⟨⟨2021, 1, 15⟩, 2021, 1, "Soy", "Mato Grosso", "2020/2021",
      Activity.Planting, 40⟩]
    ((⟨2021, 1, 15⟩, 2021, 1, "Soy", "Mato Grosso", "2020/2021") : GroupKey)
    (by decide)

/-- C5: every file emitted by `save_separated_files` holds exactly the
summary rows of its crop whose percentage for its activity is strictly
positive (as a multiset, after column selection/renaming), sorted
ascending by date and non-empty; and a (crop, activity) pair whose subset
is empty produces no file. -/
theorem c5_separated_files (df : List SummaryRow) :
    (∀ f ∈ save_separated_files df,
        List.Perm f.rows
          ((df.filter (fun r => decide (0 < pctOf f.col r) &&
              decide (r.crop = f.crop))).map (toCleanRow f.col)) ∧
        f.rows.Sorted cleanRowLe ∧
        f.rows ≠ []) ∧
    (∀ crop ∈ cropsList, ∀ act ∈ activitiesList,
        df.filter (fun r => decide (0 < pctOf act.2.1 r) &&
          decide (r.crop = crop)) = [] →
        ∀ f ∈ save_separated_files df, ¬(f.crop = crop ∧ f.col = act.2.1)) := by
  constructor
  · intro f hf
    simp only [save_separated_files] at hf
    rw [List.mem_flatMap] at hf
    obtain ⟨crop, hcrop, hf⟩ := hf
    by_cases hempty : (df.filter (fun r => decide (r.crop = crop))).isEmpty = true
    · rw [if_pos hempty] at hf
      simp at hf
    · rw [if_neg hempty] at hf
      rw [List.mem_filterMap] at hf
      obtain ⟨act, hact, hsome⟩ := hf
      by_cases hae : ((df.filter (fun r => decide (r.crop = crop))).filter
          (fun r => decide (0 < pctOf act.2.1 r))).isEmpty = true
      · rw [if_pos hae] at hsome
        exact Option.noConfusion hsome
      · rw [if_neg hae] at hsome
        injection hsome with hsome
        subst hsome
        dsimp only
        refine ⟨?_, ?_, ?_⟩
        · have heq : (df.filter (fun r => decide (r.crop = crop))).filter
              (fun r => decide (0 < pctOf act.2.1 r)) =
              df.filter (fun r => decide (0 < pctOf act.2.1 r) &&
                decide (r.crop = crop)) :=
            List.filter_filter _ df
          rw [← heq]
          exact List.perm_insertionSort cleanRowLe
            (((df.filter (fun r => decide (r.crop = crop))).filter
              (fun r => decide (0 < pctOf act.2.1 r))).map (toCleanRow act.2.1))
        · exact List.sorted_insertionSort cleanRowLe _
        · intro hnil
          have hlen := List.length_insertionSort cleanRowLe
            (((df.filter (fun r => decide (r.crop = crop))).filter
              (fun r => decide (0 < pctOf act.2.1 r))).map (toCleanRow act.2.1))
          rw [hnil, List.length_nil, List.length_map] at hlen
          apply hae
          rw [List.isEmpty_eq_true, ← List.length_eq_zero]
          omega
  · intro crop hcrop act hact hfe f hf hcc
    simp only [save_separated_files] at hf
    rw [List.mem_flatMap] at hf
    obtain ⟨crop', hcrop', hf⟩ := hf
    by_cases hempty : (df.filter (fun r => decide (r.crop = crop'))).isEmpty = true
    · rw [if_pos hempty] at hf
      simp at hf
    · rw [if_neg hempty] at hf
      rw [List.mem_filterMap] at hf
      obtain ⟨act', hact', hsome⟩ := hf
      by_cases hae : ((df.filter (fun r => decide (r.crop = crop'))).filter
          (fun r => decide (0 < pctOf act'.2.1 r))).isEmpty = true
      · rw [if_pos hae] at hsome
        exact Option.noConfusion hsome
      · rw [if_neg hae] at hsome
        injection hsome with hsome
        subst hsome
        obtain ⟨hc1, hc2⟩ := hcc
        have hc1' : crop' = crop := hc1
        have hc2' : act'.2.1 = act.2.1 := hc2
        subst hc1'
        have hacts : act' = act := by
          simp only [activitiesList, List.mem_cons, List.not_mem_nil, or_false] at hact hact'
          rcases hact with rfl | rfl | rfl <;> rcases hact' with rfl | rfl | rfl <;>
            first
              | rfl
              | exact absurd hc2' (by decide)
        subst hacts
        exact hae (by rw [List.filter_filter, hfe]; rfl)
